import Mathlib

/-!
Verification development for the personal-finance web application in
`src/app.py`.  The Python handlers are shallowly embedded: SQLAlchemy row
types become structures, the relational store becomes a `List` of rows,
`float` amounts become exact rationals (`ℚ`), fallible parsing becomes
`Option`/`Except`, and each route handler becomes a pure function from its
form inputs and the store to the new store plus the flashed message and
redirect target.
-/

namespace Kurs

/-! ## Models of the Python string/number primitives used by `app.py` -/

/-- Model of Python `str.strip()` on the character list of a string
(drops leading and trailing whitespace; Lean's `Char.isWhitespace`
covers the ASCII whitespace Python strips). -/
def pyStrip (cs : List Char) : List Char :=
  ((cs.dropWhile Char.isWhitespace).reverse.dropWhile Char.isWhitespace).reverse

/-- Model of `str.replace(",", ".")`: the pattern is a single character,
so the replacement is a character map. -/
def commaToDot (cs : List Char) : List Char :=
  cs.map fun c => if c = ',' then '.' else c

/-- Numeric value of a list of decimal digit characters, most significant
first (used to model Python's `int`/`float` literal parsing). -/
def digitsVal (ds : List Char) : Nat :=
  ds.foldl (fun a c => a * 10 + (c.toNat - 48)) 0

/-- Model of Python `float(s)` on finite decimal literals: optional
surrounding whitespace, optional sign, digits with an optional fractional
part (at least one digit overall), and an optional exponent part.
(`inf`/`nan` and digit-group underscores, which `float` also accepts, have
no rational value and are not modelled; no claim depends on them.) -/
def pyFloat (cs0 : List Char) : Option ℚ :=
  let cs1 := pyStrip cs0
  let sign : ℚ := if cs1.head? = some '-' then -1 else 1
  let cs := if cs1.head? = some '-' ∨ cs1.head? = some '+' then cs1.tail else cs1
  let ip := cs.takeWhile Char.isDigit
  let rest := cs.dropWhile Char.isDigit
  let fp := if rest.head? = some '.' then rest.tail.takeWhile Char.isDigit else []
  let rest2 := if rest.head? = some '.' then rest.tail.dropWhile Char.isDigit else rest
  if ip = [] ∧ fp = [] then none
  else
    let mant : ℚ := (digitsVal ip : ℚ) + (digitsVal fp : ℚ) / (10 ^ fp.length)
    match rest2 with
    | [] => some (sign * mant)
    | e :: r0 =>
      if e = 'e' ∨ e = 'E' then
        let esign : ℤ := if r0.head? = some '-' then -1 else 1
        let r := if r0.head? = some '-' ∨ r0.head? = some '+' then r0.tail else r0
        let ed := r.takeWhile Char.isDigit
        if ed = [] ∨ r.dropWhile Char.isDigit ≠ [] then none
        else some (sign * mant * (10:ℚ) ^ (esign * (digitsVal ed : ℤ)))
      else none

/-- `parse_number` from `app.py`: strip the raw string, normalize a comma
decimal separator to a dot, and parse with `float`; `none` models the
`ValueError` raised by `float`. -/
def parse_number (raw : String) : Option ℚ :=
  pyFloat (commaToDot (pyStrip raw.data))

/-- A Python value that can reach `parse_number` in `update_goal`: either a
string from the form or a float default taken from the goal row. -/
inductive PyVal where
  | str (s : String)
  | num (q : ℚ)
deriving DecidableEq

/-- The two exception kinds relevant to `parse_number`. -/
inductive PyErr where
  | valueError
  | attributeError
deriving DecidableEq

/-- Dynamic behaviour of `parse_number` when it may receive a float: the
body runs `(raw or "").strip()`, so a falsy `0.0` becomes `""` and
`float("")` raises `ValueError`, while a non-zero float has no `.strip`
method and raises `AttributeError`. -/
def parse_number_dyn : PyVal → Except PyErr ℚ
  | .str s =>
    match parse_number s with
    | some q => .ok q
    | none => .error .valueError
  | .num q => if q = 0 then .error .valueError else .error .attributeError

/-- Model of Python `int(s)`: optional surrounding whitespace, optional
sign, at least one decimal digit and nothing else; `none` models
`ValueError`. -/
def pyIntParse (raw : String) : Option ℤ :=
  let cs1 := pyStrip raw.data
  let sign : ℤ := if cs1.head? = some '-' then -1 else 1
  let cs := if cs1.head? = some '-' ∨ cs1.head? = some '+' then cs1.tail else cs1
  if cs = [] then none
  else if cs.all Char.isDigit then some (sign * (digitsVal cs : ℤ))
  else none

/-- Model of Python `s.startswith(p)`: the code points of `p` form a
prefix of the code points of `s`. -/
def pyStartsWith (s p : String) : Bool :=
  p.data.isPrefixOf s.data

/-- Model of the format fragment `f"...{m:02d}"` for the month: zero-pad
the decimal rendering to width 2. -/
def pad2 (m : ℤ) : String :=
  if 0 ≤ m ∧ m < 10 then "0" ++ toString m else toString m

/-- Zero-padding to width 4 (`f"{y:04d}"`), as written in the claim about
the period prefix; the code itself does not pad the year. -/
def pad4 (y : ℤ) : String :=
  if 0 ≤ y then
    (if y < 10 then "000" else if y < 100 then "00" else if y < 1000 then "0" else "")
      ++ toString y
  else
    "-" ++ (if -y < 10 then "00" else if -y < 100 then "0" else "") ++ toString (-y)

/-- The period string `f"{sel_year}-{sel_month:02d}"` built by the
dashboard handler. -/
def monthPrefixStr (year month : ℤ) : String :=
  toString year ++ "-" ++ pad2 month

/-- Model of Python `round(x, 2)` on exact rationals: round `100·x` to the
nearest integer, ties to the even integer (banker's rounding), and divide
by 100. -/
def roundHalfEven (q : ℚ) : ℤ :=
  let f := ⌊q⌋
  if q - f < 1/2 then f
  else if 1/2 < q - f then f + 1
  else if f % 2 = 0 then f else f + 1

/-- Rounding to two decimal places, as in `round(daily[d], 2)`. -/
def round2 (q : ℚ) : ℚ :=
  (roundHalfEven (q * 100) : ℚ) / 100

/-! ## Association-list model of the Python dicts built by the dashboard -/

/-- Dict read with default 0: `m.get(k, 0.0)` (and `m[k]` for present
keys). -/
def alGet (m : List (String × ℚ)) (k : String) : ℚ :=
  match m.find? (fun p => p.1 == k) with
  | some p => p.2
  | none => 0

/-- Dict write `m[k] = m.get(k, 0.0) + v`, preserving first-seen key
order. -/
def alAdd (m : List (String × ℚ)) (k : String) (v : ℚ) : List (String × ℚ) :=
  if m.any (fun p => p.1 == k) then
    m.map (fun p => if p.1 == k then (p.1, p.2 + v) else p)
  else m ++ [(k, v)]

/-- Dict write `m[k] = v` (overwrite or append), preserving first-seen key
order; models the dict comprehension over budget rows. -/
def alSet (m : List (String × ℚ)) (k : String) (v : ℚ) : List (String × ℚ) :=
  if m.any (fun p => p.1 == k) then
    m.map (fun p => if p.1 == k then (p.1, v) else p)
  else m ++ [(k, v)]

/-! ## Data model: the SQLAlchemy rows of `app.py` -/

/-- A `Transaction` row. An absent (`NULL`) category is modelled by the
empty string, matching the falsy test `t.category or "Інше"`. -/
structure Txn where
  id : Nat
  user_id : Nat
  type : String
  category : String
  amount : ℚ
  payment_method : String
  date : String
  description : String
deriving DecidableEq

/-- A `Budget` row. -/
structure BudgetRow where
  id : Nat
  user_id : Nat
  category : String
  amount : ℚ
deriving DecidableEq

/-- A `Goal` row. -/
structure GoalRow where
  id : Nat
  user_id : Nat
  name : String
  target : ℚ
  current : ℚ
  deadline : Option String
deriving DecidableEq

/-! ## The dashboard aggregation (lines 147–232 of `app.py`)

Each definition takes the current user's own rows (the handler filters by
`user_id` in the query) and the selected period. -/

/-- `month_tr`: the user's transactions whose date starts with the period
string. -/
def monthTxns (txns : List Txn) (year month : ℤ) : List Txn :=
  txns.filter (fun t => pyStartsWith t.date (monthPrefixStr year month))

/-- `income`: sum of period income amounts. -/
def periodIncome (txns : List Txn) (year month : ℤ) : ℚ :=
  (((monthTxns txns year month).filter (fun t => t.type == "income")).map Txn.amount).sum

/-- `expenses`: sum of period expense amounts. -/
def periodExpensesTotal (txns : List Txn) (year month : ℤ) : ℚ :=
  (((monthTxns txns year month).filter (fun t => t.type == "expense")).map Txn.amount).sum

/-- `balance = income - expenses`. -/
def periodBalance (txns : List Txn) (year month : ℤ) : ℚ :=
  periodIncome txns year month - periodExpensesTotal txns year month

/-- `exp_by_cat`: per-category expense totals of the period, categories in
first-seen order, an empty category replaced by `"Інше"`. -/
def expByCat (mtr : List Txn) : List (String × ℚ) :=
  mtr.foldl
    (fun m t =>
      if t.type == "expense" then
        alAdd m (if t.category == "" then "Інше" else t.category) t.amount
      else m)
    []

/-- `daily`: per-date signed net of the period (income adds, anything else
subtracts, matching `sign = 1 if t.type == "income" else -1`). -/
def dailyMap (mtr : List Txn) : List (String × ℚ) :=
  mtr.foldl
    (fun m t => alAdd m t.date ((if t.type == "income" then (1:ℚ) else -1) * t.amount))
    []

/-- `daily_labels = sorted(daily.keys())`; Python sorts strings by code
points, which is the lexicographic order on their character lists. -/
def dailyLabels (mtr : List Txn) : List String :=
  List.insertionSort (fun a b => a.data ≤ b.data) ((dailyMap mtr).map Prod.fst)

/-- `daily_values = [round(daily[d], 2) for d in daily_labels]`. -/
def dailyValues (mtr : List Txn) : List ℚ :=
  (dailyLabels mtr).map fun d => round2 (alGet (dailyMap mtr) d)

/-- `goals_savings`: sum of `current` over all of the user's goals. -/
def totalSavings (goals : List GoalRow) : ℚ :=
  (goals.map GoalRow.current).sum

/-- `budget_map = {b.category: b.amount for b in budgets}`; a later row
with the same category overwrites an earlier one, as in a Python dict
comprehension. -/
def budgetMapOf (budgets : List BudgetRow) : List (String × ℚ) :=
  budgets.foldl (fun m b => alSet m b.category b.amount) []

/-- The financial-health computation of the dashboard handler
(lines 198–209 of `app.py`). -/
def healthScore (txns : List Txn) (budgets : List BudgetRow) (goals : List GoalRow)
    (year month : ℤ) : ℚ :=
  let inc := periodIncome txns year month
  let bal := periodBalance txns year month
  let ebc := expByCat (monthTxns txns year month)
  let bmap := budgetMapOf budgets
  if 0 < inc then
    let spend_eff := max 0 (min (bal / inc * 100) 100)
    let total_budget := (bmap.map Prod.snd).sum
    let spent_vs_budget := bmap.foldl (fun s p => s + min (alGet ebc p.1) p.2) 0
    let budget_eff := if 0 < total_budget then spent_vs_budget / total_budget * 100 else 100
    let saving_ratio := min (totalSavings goals / inc * 100) 100
    spend_eff * 0.5 + budget_eff * 0.3 + saving_ratio * 0.2
  else 0

/-! ## Dashboard month/year selection and rendering (lines 153–165, 211–217)

`request.args.get` yields `none` when absent; `if m_arg and y_arg` treats
`none` and the empty string as falsy.  Rendering looks the selected month
up in `MONTHS_UA`, so a month outside 1–12 raises `KeyError`. -/

/-- The Ukrainian month-name table `MONTHS_UA`; `none` models a
`KeyError` lookup. -/
def monthsUA (m : ℤ) : Option String :=
  if m = 1 then some "січень" else if m = 2 then some "лютий"
  else if m = 3 then some "березень" else if m = 4 then some "квітень"
  else if m = 5 then some "травень" else if m = 6 then some "червень"
  else if m = 7 then some "липень" else if m = 8 then some "серпень"
  else if m = 9 then some "вересень" else if m = 10 then some "жовтень"
  else if m = 11 then some "листопад" else if m = 12 then some "грудень"
  else none

/-- Resolution of the `month`/`year` query parameters: both must be
present and non-empty, and both must parse as `int`, otherwise the current
month and year are used. -/
def resolveSelector (mArg yArg : Option String) (todayMonth todayYear : ℤ) : ℤ × ℤ :=
  match mArg, yArg with
  | some ms, some ys =>
    if ms ≠ "" ∧ ys ≠ "" then
      match pyIntParse ms, pyIntParse ys with
      | some m, some y => (m, y)
      | _, _ => (todayMonth, todayYear)
    else (todayMonth, todayYear)
  | _, _ => (todayMonth, todayYear)

/-- Outcome of a dashboard request: a rendered page carrying the selected
month/year (and the displayed month name), or an uncaught `KeyError` from
`MONTHS_UA[sel_month]`. -/
inductive DashResult where
  | page (monthName : String) (selMonth selYear : ℤ)
  | keyError
deriving DecidableEq

/-- The dashboard request seen through its selector handling: resolve the
selector, then render, which evaluates `MONTHS_UA[sel_month]`. -/
def dashboardRender (mArg yArg : Option String) (todayMonth todayYear : ℤ) : DashResult :=
  let sel := resolveSelector mArg yArg todayMonth todayYear
  match monthsUA sel.1 with
  | some nm => .page nm sel.1 sel.2
  | none => .keyError

/-! ## Route handlers (store mutations)

Each handler returns the new store together with the flashed message (when
any) and the redirect target. -/

/-- Form data: the `request.form` multidict, as key/value pairs. -/
def formLookup (form : List (String × String)) (k : String) : Option String :=
  (form.find? (fun p => p.1 == k)).map Prod.snd

/-- `request.form.get(k, default)` where the default may be a float row
field (as in `update_goal`). -/
def formGetDyn (form : List (String × String)) (k : String) (dflt : PyVal) : PyVal :=
  match formLookup form k with
  | some v => .str v
  | none => dflt

/-- `delete_transaction` (lines 288–298): fetch by primary key; delete
only when the row belongs to the current user; no message otherwise. -/
def delete_transaction (uid tid : Nat) (store : List Txn) :
    List Txn × Option String :=
  match store.find? (fun t => t.id == tid) with
  | some tr =>
    if tr.user_id == uid then
      (store.eraseP (fun t => t.id == tid), some "Транзакцію видалено.")
    else (store, none)
  | none => (store, none)

/-- `add_transaction` (lines 259–285): parse the amount first; on
`ValueError` flash a warning and redirect with no write; otherwise insert
the new row. -/
def add_transaction (uid : Nat) (amountRaw typeField : String)
    (categorySelect category payment date description : Option String)
    (today : String) (newId : Nat) (store : List Txn) :
    List Txn × String × String :=
  match parse_number amountRaw with
  | none => (store, "Сума транзакції має бути числом!", "transactions_view")
  | some amount =>
    let cat :=
      match categorySelect with
      | some c => if c = "" then (match category with
          | some c2 => if c2 = "" then "Інше" else c2
          | none => "Інше") else c
      | none =>
        match category with
        | some c2 => if c2 = "" then "Інше" else c2
        | none => "Інше"
    let tr : Txn :=
      { id := newId
        user_id := uid
        type := typeField
        category := cat
        amount := amount
        payment_method := (payment.getD "Cash")
        date := match date with
          | some d => if d = "" then today else d
          | none => today
        description := description.getD "" }
    (store ++ [tr], "Транзакцію додано!", "transactions_view")

/-- Update the amount of the first budget row matching the user and
category (the row `Budget.query.filter_by(...).first()` returns). -/
def setBudgetAmountFirst (uid : Nat) (cat : String) (amt : ℚ) :
    List BudgetRow → List BudgetRow
  | [] => []
  | b :: bs =>
    if b.user_id == uid && b.category == cat then { b with amount := amt } :: bs
    else b :: setBudgetAmountFirst uid cat amt bs

/-- `save_budget` (lines 328–348): parse the amount; if a row for the
stripped category already exists update its amount in place, otherwise
append a new row. -/
def save_budget_route (uid : Nat) (categoryRaw amountRaw : String) (newId : Nat)
    (store : List BudgetRow) : List BudgetRow × String × String :=
  let category := String.mk (pyStrip categoryRaw.data)
  match parse_number amountRaw with
  | none => (store, "Сума бюджету має бути числом!", "budget")
  | some amount =>
    if store.any (fun b => b.user_id == uid && b.category == category) then
      (setBudgetAmountFirst uid category amount store, "Бюджет збережено!", "budget")
    else
      (store ++ [{ id := newId, user_id := uid, category := category, amount := amount }],
        "Бюджет збережено!", "budget")

/-- Rename the first budget row matching the user and old category and set
its amount (the in-place mutation of `update_budget`). -/
def renameBudgetFirst (uid : Nat) (oldCat newCat : String) (amt : ℚ) :
    List BudgetRow → List BudgetRow
  | [] => []
  | b :: bs =>
    if b.user_id == uid && b.category == oldCat then
      { b with category := newCat, amount := amt } :: bs
    else b :: renameBudgetFirst uid oldCat newCat amt bs

/-- `update_budget` (lines 351–372): parse the amount, look the old
category up, then rename in place with no uniqueness check against other
rows of the same user. -/
def update_budget (uid : Nat) (oldCategory categoryRaw amountRaw : String)
    (store : List BudgetRow) : List BudgetRow × String × String :=
  let newCategory := String.mk (pyStrip categoryRaw.data)
  match parse_number amountRaw with
  | none => (store, "Сума бюджету має бути числом!", "budget")
  | some amount =>
    if store.any (fun b => b.user_id == uid && b.category == oldCategory) then
      (renameBudgetFirst uid oldCategory newCategory amount store,
        "Категорію оновлено!", "budget")
    else (store, "Категорію не знайдено.", "budget")

/-- `add_savings` (lines 407–430): parse target and current (the latter
defaulting to the string `"0"`); on `ValueError` warn and redirect with no
write. -/
def add_savings (uid : Nat) (name : String) (deadline : Option String)
    (targetRaw : String) (currentRaw : Option String) (newId : Nat)
    (store : List GoalRow) : List GoalRow × String × String :=
  match parse_number targetRaw with
  | none => (store, "Суми в цілі мають бути числами!", "savings")
  | some target =>
    match parse_number (currentRaw.getD "0") with
    | none => (store, "Суми в цілі мають бути числами!", "savings")
    | some current =>
      let g : GoalRow :=
        { id := newId, user_id := uid, name := name, target := target,
          current := current,
          deadline := match deadline with
            | some d => if d = "" then none else some d
            | none => none }
      (store ++ [g], "Ціль додано!", "savings")

/-- Overwrite the fields of the first goal row with the given id (the
in-place mutation of `update_goal`). -/
def setGoalFirst (gid : Nat) (name : String) (target current : ℚ)
    (deadline : Option String) : List GoalRow → List GoalRow
  | [] => []
  | g :: gs =>
    if g.id == gid then
      { g with name := name, target := target, current := current, deadline := deadline } :: gs
    else g :: setGoalFirst gid name target current deadline gs

/-- `update_goal` (lines 433–458): fetch by primary key and check
ownership; read `name`/`deadline` with row defaults; parse `target` and
`current`, whose form defaults are the float row fields, catching only
`ValueError`; an `AttributeError` from a float default escapes as an
uncaught exception (`Except.error`). -/
def update_goal (uid gid : Nat) (form : List (String × String))
    (store : List GoalRow) : Except PyErr (List GoalRow × String × String) :=
  match store.find? (fun g => g.id == gid) with
  | none => .ok (store, "Ціль не знайдено.", "savings")
  | some g =>
    if g.user_id ≠ uid then .ok (store, "Ціль не знайдено.", "savings")
    else
      let name := (formLookup form "name").getD g.name
      let deadline :=
        match formLookup form "deadline" with
        | some d => if d = "" then none else some d
        | none => none
      match parse_number_dyn (formGetDyn form "target" (.num g.target)) with
      | .error .valueError => .ok (store, "Суми в цілі мають бути числами!", "savings")
      | .error e => .error e
      | .ok target =>
        match parse_number_dyn (formGetDyn form "current" (.num g.current)) with
        | .error .valueError => .ok (store, "Суми в цілі мають бути числами!", "savings")
        | .error e => .error e
        | .ok current =>
          .ok (setGoalFirst gid name target current deadline store,
            "Ціль оновлено!", "savings")

/-- `delete_goal` (lines 461–472): fetch by primary key; delete only when
owned, otherwise flash a failure message. -/
def delete_goal (uid gid : Nat) (store : List GoalRow) : List GoalRow × String :=
  match store.find? (fun g => g.id == gid) with
  | some g =>
    if g.user_id == uid then
      (store.eraseP (fun g2 => g2.id == gid), "Ціль видалено.")
    else (store, "Не вдалося видалити ціль.")
  | none => (store, "Не вдалося видалити ціль.")

/-! ## Spec-side restatement of the health score

These definitions follow the words of the specification (and of claim C1)
rather than the code, so that the code's computation can be compared
against them. -/

/-- Spec wording: `clamp(x, lo, hi)`. -/
def clampQ (x lo hi : ℚ) : ℚ := min (max x lo) hi

/-- Spec wording: `spend_efficiency = clamp(balance / income × 100, 0, 100)`. -/
def spendEfficiencySpec (txns : List Txn) (year month : ℤ) : ℚ :=
  clampQ (periodBalance txns year month / periodIncome txns year month * 100) 0 100

/-- Spec wording: `budget_efficiency` is the sum over budget categories of
`min(expenses_by_category[cat] or 0, budget_limit[cat])`, divided by the
sum of all budget limits and scaled to 100 when that sum is positive, and
100 otherwise. -/
def budgetEfficiencySpec (txns : List Txn) (budgets : List BudgetRow)
    (year month : ℤ) : ℚ :=
  let bmap := budgetMapOf budgets
  let limitsSum := (bmap.map Prod.snd).sum
  if 0 < limitsSum then
    (bmap.map (fun p => min (alGet (expByCat (monthTxns txns year month)) p.1) p.2)).sum
      / limitsSum * 100
  else 100

/-- Spec wording: `saving_ratio = min(total_savings / income × 100, 100)`. -/
def savingRatioSpec (txns : List Txn) (goals : List GoalRow) (year month : ℤ) : ℚ :=
  min (totalSavings goals / periodIncome txns year month * 100) 100

/-- Spec wording: `health = 0.5·spend_efficiency + 0.3·budget_efficiency
+ 0.2·saving_ratio` (meaningful when income is positive). -/
def healthScoreSpec (txns : List Txn) (budgets : List BudgetRow)
    (goals : List GoalRow) (year month : ℤ) : ℚ :=
  0.5 * spendEfficiencySpec txns year month
    + 0.3 * budgetEfficiencySpec txns budgets year month
    + 0.2 * savingRatioSpec txns goals year month

/-! ## Shared helper lemmas -/

/-- Accumulating a sum with `foldl` equals adding the sum of the mapped
list. -/
theorem foldl_add_map {α : Type} (f : α → ℚ) :
    ∀ (l : List α) (a : ℚ), l.foldl (fun s x => s + f x) a = a + (l.map f).sum := by
  intro l
  induction l with
  | nil => intro a; simp
  | cons x xs ih => intro a; simp [ih, add_assoc]

/-- The code's `max(0, min(x, 100))` equals the spec's `clamp(x, 0, 100)`. -/
theorem max_min_eq_clamp (x : ℚ) : max 0 (min x 100) = clampQ x 0 100 := by
  unfold clampQ
  rcases le_total x 0 with h | h
  · rw [min_eq_left (le_trans h (by norm_num)), max_eq_left h, max_eq_right h,
      min_eq_left (by norm_num : (0:ℚ) ≤ 100)]
  · rw [max_eq_right (le_min h (by norm_num)), max_eq_left h]

/-! ## The scenario of spec §8 (used by claims about the health score) -/

/-- Scenario transactions: income 1000, expenses 200 and 100 in category
`food`, all inside period 2024-05. -/
def scTxns : List Txn :=
  [⟨1, 1, "income", "Зарплата", 1000, "Cash", "2024-05-01", ""⟩,
   ⟨2, 1, "expense", "food", 200, "Cash", "2024-05-02", ""⟩,
   ⟨3, 1, "expense", "food", 100, "Cash", "2024-05-03", ""⟩]

/-- Scenario budget: `{food: 250}`. -/
def scBudgets : List BudgetRow := [⟨1, 1, "food", 250⟩]

/-- Scenario goals: current total 100. -/
def scGoals : List GoalRow := [⟨1, 1, "Ціль", 1000, 100, none⟩]

/-! ## Claims -/

/-- C1: whenever the period income is positive, the dashboard health score
equals `0.5·spend_efficiency + 0.3·budget_efficiency + 0.2·saving_ratio`
with the component formulas as the spec states them, and on the spec's
scenario (income 1000, expenses 300 in `food`, budget `{food: 250}`, goals
current total 100) the health score equals 67. -/
theorem C1_dashboard_health_formula :
    (∀ (txns : List Txn) (budgets : List BudgetRow) (goals : List GoalRow)
      (year month : ℤ), 0 < periodIncome txns year month →
        healthScore txns budgets goals year month
          = healthScoreSpec txns budgets goals year month)
    ∧ healthScore scTxns scBudgets scGoals 2024 5 = 67 := by
  constructor
  · intro txns budgets goals year month h
    simp only [healthScore, healthScoreSpec, spendEfficiencySpec, budgetEfficiencySpec,
      savingRatioSpec]
    rw [if_pos h,
      foldl_add_map (fun p => min (alGet (expByCat (monthTxns txns year month)) p.1) p.2)
        (budgetMapOf budgets) 0,
      zero_add, max_min_eq_clamp]
    split_ifs with h2
    · ring
    · ring
  · have hm : monthTxns scTxns 2024 5 = scTxns := by decide
    have hInc : periodIncome scTxns 2024 5 = 1000 := by
      rw [periodIncome, hm]
      simp [scTxns]
    have hExp : periodExpensesTotal scTxns 2024 5 = 300 := by
      rw [periodExpensesTotal, hm]
      simp [scTxns]
      norm_num
    have hEbc : expByCat (monthTxns scTxns 2024 5) = [("food", 300)] := by
      rw [hm]
      simp [expByCat, scTxns, alAdd]
      norm_num
    have hBmap : budgetMapOf scBudgets = [("food", 250)] := by
      simp [budgetMapOf, scBudgets, alSet]
    simp only [healthScore, periodBalance, hInc, hExp, hEbc, hBmap, totalSavings, scGoals]
    norm_num [alGet]

/-- Witness for C1: the formula instance at the spec's own scenario, whose
period income 1000 is positive. -/
theorem C1_dashboard_health_formula_witness :
    healthScore scTxns scBudgets scGoals 2024 5
      = healthScoreSpec scTxns scBudgets scGoals 2024 5 :=
  C1_dashboard_health_formula.1 scTxns scBudgets scGoals 2024 5 (by
    have hm : monthTxns scTxns 2024 5 = scTxns := by decide
    rw [periodIncome, hm]
    simp [scTxns])

/-! ## Nonnegativity lemmas for the dashboard dictionaries -/

theorem alAdd_nonneg {m : List (String × ℚ)} {v : ℚ} (hm : ∀ p ∈ m, 0 ≤ p.2)
    (hv : 0 ≤ v) (k : String) : ∀ p ∈ alAdd m k v, 0 ≤ p.2 := by
  intro p hp
  unfold alAdd at hp
  split_ifs at hp with h
  · obtain ⟨q, hq, rfl⟩ := List.mem_map.mp hp
    by_cases hk : q.1 == k
    · simp only [hk, if_pos] at *
      simpa using add_nonneg (hm q hq) hv
    · simp only [hk] at *
      simpa using hm q hq
  · rcases List.mem_append.mp hp with h2 | h2
    · exact hm p h2
    · simp only [List.mem_singleton] at h2
      subst h2
      exact hv

theorem alSet_nonneg {m : List (String × ℚ)} {v : ℚ} (hm : ∀ p ∈ m, 0 ≤ p.2)
    (hv : 0 ≤ v) (k : String) : ∀ p ∈ alSet m k v, 0 ≤ p.2 := by
  intro p hp
  unfold alSet at hp
  split_ifs at hp with h
  · obtain ⟨q, hq, rfl⟩ := List.mem_map.mp hp
    by_cases hk : q.1 == k
    · simp only [hk, if_pos] at *
      simpa using hv
    · simp only [hk] at *
      simpa using hm q hq
  · rcases List.mem_append.mp hp with h2 | h2
    · exact hm p h2
    · simp only [List.mem_singleton] at h2
      subst h2
      exact hv

theorem alGet_nonneg {m : List (String × ℚ)} (hm : ∀ p ∈ m, 0 ≤ p.2)
    (k : String) : 0 ≤ alGet m k := by
  unfold alGet
  cases hfind : m.find? (fun p => p.1 == k) with
  | none => exact le_refl 0
  | some p => exact hm p (List.mem_of_find?_eq_some hfind)

theorem expByCat_nonneg_aux :
    ∀ (l : List Txn) (m : List (String × ℚ)), (∀ p ∈ m, 0 ≤ p.2) →
      (∀ t ∈ l, 0 ≤ t.amount) →
      ∀ p ∈ l.foldl
        (fun m t =>
          if t.type == "expense" then
            alAdd m (if t.category == "" then "Інше" else t.category) t.amount
          else m) m, 0 ≤ p.2 := by
  intro l
  induction l with
  | nil => intro m hm _ p hp; exact hm p hp
  | cons t ts ih =>
    intro m hm hl p hp
    rw [List.foldl_cons] at hp
    refine ih _ ?_ (fun u hu => hl u (List.mem_cons_of_mem t hu)) p hp
    by_cases ht : t.type == "expense"
    · simp only [ht, if_pos]
      exact alAdd_nonneg hm (hl t (List.mem_cons_self t ts)) _
    · simp only [ht, if_neg]
      simpa using hm

/-- Every per-category expense total is nonnegative when every transaction
amount is. -/
theorem expByCat_nonneg {mtr : List Txn} (hT : ∀ t ∈ mtr, 0 ≤ t.amount) :
    ∀ p ∈ expByCat mtr, 0 ≤ p.2 :=
  expByCat_nonneg_aux mtr [] (by simp) hT

theorem budgetMapOf_nonneg_aux :
    ∀ (l : List BudgetRow) (m : List (String × ℚ)), (∀ p ∈ m, 0 ≤ p.2) →
      (∀ b ∈ l, 0 ≤ b.amount) →
      ∀ p ∈ l.foldl (fun m b => alSet m b.category b.amount) m, 0 ≤ p.2 := by
  intro l
  induction l with
  | nil => intro m hm _ p hp; exact hm p hp
  | cons b bs ih =>
    intro m hm hl p hp
    rw [List.foldl_cons] at hp
    exact ih _ (alSet_nonneg hm (hl b (List.mem_cons_self b bs)) _)
      (fun u hu => hl u (List.mem_cons_of_mem b hu)) p hp

/-- Every budget-map limit is nonnegative when every budget amount is. -/
theorem budgetMapOf_nonneg {budgets : List BudgetRow}
    (hB : ∀ b ∈ budgets, 0 ≤ b.amount) : ∀ p ∈ budgetMapOf budgets, 0 ≤ p.2 :=
  budgetMapOf_nonneg_aux budgets [] (by simp) hB

/-- Bounds of the weighted combination used by the health score. -/
theorem health_combo_bounds {se be sr : ℚ} (h1 : 0 ≤ se) (h2 : se ≤ 100)
    (h3 : 0 ≤ be) (h4 : be ≤ 100) (h5 : 0 ≤ sr) (h6 : sr ≤ 100) :
    0 ≤ se * 0.5 + be * 0.3 + sr * 0.2 ∧ se * 0.5 + be * 0.3 + sr * 0.2 ≤ 100 := by
  constructor <;> nlinarith

/-- Membership in the period filter implies membership in the full list. -/
theorem mem_of_mem_monthTxns {t : Txn} {txns : List Txn} {year month : ℤ}
    (h : t ∈ monthTxns txns year month) : t ∈ txns :=
  (List.mem_filter.mp h).1

/-- C2 (amended): the health score is 0 whenever the period income is 0,
and it lies in [0, 100] provided all transaction amounts, budget limits
and goal `current` values are nonnegative.  (As stated, the claim is
false: a negative goal `current` drives `saving_ratio`, which has no lower
clamp, arbitrarily far below 0 — see the counterexample.) -/
theorem C2_health_bounds :
    ∀ (txns : List Txn) (budgets : List BudgetRow) (goals : List GoalRow)
      (year month : ℤ),
      ((∀ t ∈ txns, 0 ≤ t.amount) → (∀ b ∈ budgets, 0 ≤ b.amount) →
        (∀ g ∈ goals, 0 ≤ g.current) →
        0 ≤ healthScore txns budgets goals year month
          ∧ healthScore txns budgets goals year month ≤ 100)
      ∧ (periodIncome txns year month = 0 →
          healthScore txns budgets goals year month = 0) := by
  intro txns budgets goals year month
  constructor
  · intro hT hB hG
    simp only [healthScore]
    by_cases h : 0 < periodIncome txns year month
    · rw [if_pos h]
      have hebc : ∀ p ∈ expByCat (monthTxns txns year month), 0 ≤ p.2 :=
        expByCat_nonneg (fun t ht => hT t (mem_of_mem_monthTxns ht))
      have hbm : ∀ p ∈ budgetMapOf budgets, 0 ≤ p.2 := budgetMapOf_nonneg hB
      have hsum := foldl_add_map
        (fun p => min (alGet (expByCat (monthTxns txns year month)) p.1) p.2)
        (budgetMapOf budgets) 0
      rw [hsum, zero_add]
      have hsvb0 : 0 ≤ ((budgetMapOf budgets).map
          (fun p => min (alGet (expByCat (monthTxns txns year month)) p.1) p.2)).sum :=
        List.sum_nonneg (by
          intro x hx
          obtain ⟨p, hp, rfl⟩ := List.mem_map.mp hx
          exact le_min (alGet_nonneg hebc p.1) (hbm p hp))
      have hsvb1 : ((budgetMapOf budgets).map
          (fun p => min (alGet (expByCat (monthTxns txns year month)) p.1) p.2)).sum
          ≤ ((budgetMapOf budgets).map Prod.snd).sum :=
        List.sum_le_sum (fun p _ => min_le_right _ _)
      refine health_combo_bounds (le_max_left _ _)
        (max_le (by norm_num) (min_le_right _ _)) ?_ ?_ ?_ (min_le_right _ _)
      · split_ifs with h2
        · positivity
        · norm_num
      · split_ifs with h2
        · have : ((budgetMapOf budgets).map
              (fun p => min (alGet (expByCat (monthTxns txns year month)) p.1) p.2)).sum
              / ((budgetMapOf budgets).map Prod.snd).sum ≤ 1 :=
            (div_le_one h2).mpr hsvb1
          nlinarith
        · norm_num
      · refine le_min ?_ (by norm_num)
        have hsav : 0 ≤ totalSavings goals :=
          List.sum_nonneg (by
            intro x hx
            obtain ⟨g, hg, rfl⟩ := List.mem_map.mp hx
            exact hG g hg)
        positivity
    · rw [if_neg h]
      norm_num
  · intro h0
    simp only [healthScore, h0]
    norm_num

/-- Transactions of the C2 counterexample: a single period income of 100. -/
def cexTxns : List Txn := [⟨1, 1, "income", "Зарплата", 100, "Cash", "2024-05-01", ""⟩]

/-- Goals of the C2 counterexample: a goal whose `current` is -100000
(negative goal amounts pass `parse_number` unchanged). -/
def cexGoals : List GoalRow := [⟨1, 1, "Борг", 0, -100000, none⟩]

/-- Counterexample to C2 as stated: with income 100, no budgets, and goals
current total -100000, the health score is negative (it equals -19920), so
it does not lie in [0, 100]. -/
theorem C2_health_bounds_counterexample :
    healthScore cexTxns [] cexGoals 2024 5 < 0 := by
  have hm : monthTxns cexTxns 2024 5 = cexTxns := by decide
  have hInc : periodIncome cexTxns 2024 5 = 100 := by
    rw [periodIncome, hm]
    simp [cexTxns]
  have hExp : periodExpensesTotal cexTxns 2024 5 = 0 := by
    rw [periodExpensesTotal, hm]
    simp [cexTxns]
  simp only [healthScore, periodBalance, hInc, hExp, budgetMapOf, totalSavings, cexGoals]
  norm_num

/-- Witness for C2 (amended): the bounds hold at the spec scenario, whose
amounts are all nonnegative. -/
theorem C2_health_bounds_witness :
    0 ≤ healthScore scTxns scBudgets scGoals 2024 5
      ∧ healthScore scTxns scBudgets scGoals 2024 5 ≤ 100 :=
  (C2_health_bounds scTxns scBudgets scGoals 2024 5).1
    (by intro t ht; fin_cases ht <;> norm_num)
    (by intro b hb; fin_cases hb <;> norm_num)
    (by intro g hg; fin_cases hg <;> norm_num)

/-! ## Lemmas about the association-list dictionary -/

theorem alGet_nil (k : String) : alGet [] k = 0 := rfl

theorem alGet_cons (q : String × ℚ) (m : List (String × ℚ)) (k : String) :
    alGet (q :: m) k = if q.1 = k then q.2 else alGet m k := by
  by_cases hq : q.1 = k
  · rw [alGet, List.find?_cons_of_pos _ (by simpa using hq), if_pos hq]
  · rw [alGet, List.find?_cons_of_neg _ (by simpa using hq), if_neg hq]
    rfl

theorem alGet_map_add (k : String) (v : ℚ) :
    ∀ m : List (String × ℚ), m.any (fun p => p.1 == k) = true →
      alGet (m.map (fun p => if p.1 == k then (p.1, p.2 + v) else p)) k
        = alGet m k + v := by
  intro m
  induction m with
  | nil => intro h; simp at h
  | cons q m' ih =>
    intro h
    rw [List.map_cons]
    by_cases hq : q.1 = k
    · have hqb : (q.1 == k) = true := by simpa using hq
      rw [if_pos hqb, alGet_cons, alGet_cons, if_pos hq, if_pos hq]
    · have hqb : (q.1 == k) = false := by simpa using hq
      rw [if_neg (by simp [hqb]), alGet_cons, alGet_cons, if_neg hq, if_neg hq]
      refine ih ?_
      simpa [List.any_cons, hqb] using h

theorem alGet_append_single (k : String) (v : ℚ) :
    ∀ m : List (String × ℚ), m.any (fun p => p.1 == k) = false →
      alGet (m ++ [(k, v)]) k = alGet m k + v := by
  intro m
  induction m with
  | nil => intro _; simp [alGet_cons, alGet_nil]
  | cons q m' ih =>
    intro h
    simp only [List.any_cons, Bool.or_eq_false_iff] at h
    rw [List.cons_append, alGet_cons, alGet_cons, if_neg (by simpa using h.1),
      if_neg (by simpa using h.1)]
    exact ih h.2

/-- Adding `v` at key `k` adds `v` to the value read back at `k`. -/
theorem alGet_alAdd_self (m : List (String × ℚ)) (k : String) (v : ℚ) :
    alGet (alAdd m k v) k = alGet m k + v := by
  rw [alAdd]
  split_ifs with h
  · exact alGet_map_add k v m h
  · exact alGet_append_single k v m (Bool.eq_false_iff.mpr h)

theorem alGet_map_ne (k k' : String) (v : ℚ) (h : k' ≠ k) :
    ∀ m : List (String × ℚ),
      alGet (m.map (fun p => if p.1 == k then (p.1, p.2 + v) else p)) k'
        = alGet m k' := by
  intro m
  induction m with
  | nil => rfl
  | cons q m' ih =>
    rw [List.map_cons]
    by_cases hq : q.1 = k
    · have hqb : (q.1 == k) = true := by simpa using hq
      rw [if_pos hqb, alGet_cons, alGet_cons]
      have hne : ¬ q.1 = k' := by rw [hq]; exact fun he => h he.symm
      rw [if_neg hne, if_neg hne]
      exact ih
    · have hqb : (q.1 == k) = false := by simpa using hq
      rw [if_neg (by simp [hqb]), alGet_cons, alGet_cons]
      by_cases hq' : q.1 = k'
      · rw [if_pos hq', if_pos hq']
      · rw [if_neg hq', if_neg hq']
        exact ih

theorem alGet_append_ne (k k' : String) (v : ℚ) (h : k' ≠ k) :
    ∀ m : List (String × ℚ), alGet (m ++ [(k, v)]) k' = alGet m k' := by
  intro m
  induction m with
  | nil => rw [List.nil_append, alGet_cons, if_neg (fun he => h he.symm)]
  | cons q m' ih =>
    rw [List.cons_append, alGet_cons, alGet_cons]
    by_cases hq' : q.1 = k'
    · rw [if_pos hq', if_pos hq']
    · rw [if_neg hq', if_neg hq']
      exact ih

/-- Adding at key `k` leaves every other key's value unchanged. -/
theorem alGet_alAdd_ne (m : List (String × ℚ)) {k k' : String} (v : ℚ)
    (h : k' ≠ k) : alGet (alAdd m k v) k' = alGet m k' := by
  rw [alAdd]
  split_ifs with hAny
  · exact alGet_map_ne k k' v h m
  · exact alGet_append_ne k k' v h m

/-- The keys after `alAdd` are the old keys together with `k`. -/
theorem mem_keys_alAdd (m : List (String × ℚ)) (k : String) (v : ℚ) (d : String) :
    d ∈ (alAdd m k v).map Prod.fst ↔ d ∈ m.map Prod.fst ∨ d = k := by
  rw [alAdd]
  split_ifs with h
  · have hkeys : (m.map (fun p => if p.1 == k then (p.1, p.2 + v) else p)).map Prod.fst
        = m.map Prod.fst := by
      rw [List.map_map]
      refine List.map_congr_left ?_
      intro p _
      by_cases hp : p.1 = k <;> simp [hp]
    rw [hkeys]
    constructor
    · exact Or.inl
    · rintro (hd | rfl)
      · exact hd
      · obtain ⟨p, hp, hpk⟩ := List.any_eq_true.mp h
        exact List.mem_map.mpr ⟨p, hp, by simpa using hpk⟩
  · simp [List.map_append]

/-! ## The per-date net as the spec words it -/

/-- Spec wording: the signed net for a date — income amounts added,
all other amounts subtracted — over the period transactions carrying that
date. -/
def netOnDate (mtr : List Txn) (d : String) : ℚ :=
  ((mtr.filter (fun t => t.date == d)).map
    (fun t => (if t.type == "income" then (1:ℚ) else -1) * t.amount)).sum

theorem dailyMap_alGet_aux (d : String) :
    ∀ (l : List Txn) (m : List (String × ℚ)),
      alGet (l.foldl
        (fun m t => alAdd m t.date ((if t.type == "income" then (1:ℚ) else -1) * t.amount))
        m) d = alGet m d + netOnDate l d := by
  intro l
  induction l with
  | nil => intro m; simp [netOnDate]
  | cons t ts ih =>
    intro m
    rw [List.foldl_cons, ih]
    by_cases hd : t.date = d
    · rw [hd, alGet_alAdd_self]
      have : netOnDate (t :: ts) d = (if t.type == "income" then (1:ℚ) else -1) * t.amount
          + netOnDate ts d := by
        simp [netOnDate, List.filter_cons, hd]
      rw [this]
      ring
    · rw [alGet_alAdd_ne _ _ (fun he => hd he.symm)]
      have : netOnDate (t :: ts) d = netOnDate ts d := by
        simp [netOnDate, List.filter_cons, hd]
      rw [this]

/-- The value stored by the daily fold at a date is the signed net of the
transactions carrying that date. -/
theorem dailyMap_alGet (mtr : List Txn) (d : String) :
    alGet (dailyMap mtr) d = netOnDate mtr d := by
  rw [dailyMap, dailyMap_alGet_aux, alGet_nil, zero_add]

theorem dailyMap_keys_aux (d : String) :
    ∀ (l : List Txn) (m : List (String × ℚ)),
      (d ∈ (l.foldl
        (fun m t => alAdd m t.date ((if t.type == "income" then (1:ℚ) else -1) * t.amount))
        m).map Prod.fst ↔ d ∈ m.map Prod.fst ∨ ∃ t ∈ l, t.date = d) := by
  intro l
  induction l with
  | nil => intro m; simp
  | cons t ts ih =>
    intro m
    rw [List.foldl_cons, ih, mem_keys_alAdd]
    constructor
    · rintro ((hd | rfl) | ht)
      · exact Or.inl hd
      · exact Or.inr ⟨t, List.mem_cons_self t ts, rfl⟩
      · obtain ⟨u, hu, hud⟩ := ht
        exact Or.inr ⟨u, List.mem_cons_of_mem t hu, hud⟩
    · rintro (hd | ⟨u, hu, hud⟩)
      · exact Or.inl (Or.inl hd)
      · rcases List.mem_cons.mp hu with rfl | hu'
        · exact Or.inl (Or.inr hud.symm)
        · exact Or.inr ⟨u, hu', hud⟩

/-- The keys of the daily dict are exactly the dates of the period
transactions. -/
theorem dailyMap_keys (mtr : List Txn) (d : String) :
    d ∈ (dailyMap mtr).map Prod.fst ↔ ∃ t ∈ mtr, t.date = d := by
  rw [dailyMap, dailyMap_keys_aux]
  simp

/-- Transactions of the spec's daily-net scenario: +50 on 2024-05-01 and
-20 on 2024-05-03. -/
def c3Txns : List Txn :=
  [⟨1, 1, "income", "", 50, "Cash", "2024-05-01", ""⟩,
   ⟨2, 1, "expense", "Їжа", 20, "Cash", "2024-05-03", ""⟩]

/-- C3: the daily-net labels are exactly the distinct dates of the period
transactions, sorted ascending; the values are the per-date signed nets
rounded to 2 decimals, in label order; and the spec's scenario produces
labels `["2024-05-01", "2024-05-03"]` with values `[50, -20]`. -/
theorem C3_daily_net :
    (∀ (txns : List Txn) (year month : ℤ),
      (∀ d, d ∈ dailyLabels (monthTxns txns year month)
          ↔ ∃ t ∈ monthTxns txns year month, t.date = d)
      ∧ (dailyLabels (monthTxns txns year month)).Sorted (· ≤ ·)
      ∧ dailyValues (monthTxns txns year month)
          = (dailyLabels (monthTxns txns year month)).map
              (fun d => round2 (netOnDate (monthTxns txns year month) d)))
    ∧ dailyLabels (monthTxns c3Txns 2024 5) = ["2024-05-01", "2024-05-03"]
    ∧ dailyValues (monthTxns c3Txns 2024 5) = [50, -20] := by
  refine ⟨fun txns year month => ⟨?_, ?_, ?_⟩, ?_, ?_⟩
  · intro d
    rw [dailyLabels, List.mem_insertionSort, dailyMap_keys]
  · haveI : IsTotal String fun a b => a.data ≤ b.data :=
      ⟨fun a b => le_total a.data b.data⟩
    haveI : IsTrans String fun a b => a.data ≤ b.data :=
      ⟨fun _ _ _ hab hbc => le_trans hab hbc⟩
    refine List.Pairwise.imp ?_ (List.sorted_insertionSort _ _)
    intro a b hab
    exact String.le_iff_toList_le.mpr hab
  · rw [dailyValues]
    refine List.map_congr_left ?_
    intro d _
    rw [dailyMap_alGet]
  · decide
  · have hlab : dailyLabels (monthTxns c3Txns 2024 5) = ["2024-05-01", "2024-05-03"] := by
      decide
    rw [dailyValues, hlab]
    have h1 : alGet (dailyMap (monthTxns c3Txns 2024 5)) "2024-05-01" = 50 := by
      have hm : monthTxns c3Txns 2024 5 = c3Txns := by decide
      rw [hm, dailyMap_alGet]
      simp [netOnDate, c3Txns]
    have h3 : alGet (dailyMap (monthTxns c3Txns 2024 5)) "2024-05-03" = -20 := by
      have hm : monthTxns c3Txns 2024 5 = c3Txns := by decide
      rw [hm, dailyMap_alGet]
      simp [netOnDate, c3Txns]
    rw [List.map_cons, List.map_cons, List.map_nil, h1, h3]
    norm_num [round2, roundHalfEven]

/-! ## The period filter (claim C8) -/

theorem str_data_append (a b : String) : (a ++ b).data = a.data ++ b.data := by
  cases a
  cases b
  rfl

theorem str_empty_append (s : String) : "" ++ s = s := by
  cases s
  rfl

/-- Claim wording: a transaction belongs to the selected period exactly
when the first 7 characters of its date equal `{year:04d}-{month:02d}`. -/
def specPeriodPred (t : Txn) (year month : ℤ) : Prop :=
  t.date.data.take 7 = (pad4 year ++ "-" ++ pad2 month).data

instance (t : Txn) (year month : ℤ) : Decidable (specPeriodPred t year month) :=
  inferInstanceAs (Decidable (_ = _))

/-- A transaction dated `"50-05-01"`, as a user may enter free-text dates
and select year 50. -/
def c8Txn : Txn := ⟨1, 1, "expense", "Їжа", 10, "Cash", "50-05-01", ""⟩

/-- Counterexample to C8 as stated: for the selector (year 50, month 5)
the code's filter keeps the transaction dated `"50-05-01"` (its date
starts with the unpadded prefix `"50-05"`), yet its first 7 characters do
not equal the zero-padded `{year:04d}-{month:02d}` = `"0050-05"`. -/
theorem C8_period_filter_counterexample :
    c8Txn ∈ monthTxns [c8Txn] 50 5 ∧ ¬ specPeriodPred c8Txn 50 5 := by
  decide

/-- C8 (amended): a transaction belongs to the selected period exactly
when its date starts with the unpadded `f"{year}-{month:02d}"`; for a
four-digit year (and a month in 1–12) this coincides with the claim's
first-7-characters criterion. -/
theorem C8_period_filter :
    ∀ (txns : List Txn) (t : Txn) (year month : ℤ),
      (t ∈ monthTxns txns year month
        ↔ t ∈ txns ∧ pyStartsWith t.date (monthPrefixStr year month) = true)
      ∧ (1000 ≤ year → (toString year).length = 4 → 1 ≤ month → month ≤ 12 →
          (pyStartsWith t.date (monthPrefixStr year month) = true
            ↔ specPeriodPred t year month)) := by
  intro txns t year month
  constructor
  · rw [monthTxns, List.mem_filter]
  · intro hy hlen hm1 hm2
    have hpad4 : pad4 year = toString year := by
      rw [pad4, if_pos (by linarith : (0:ℤ) ≤ year), if_neg (by linarith),
        if_neg (by linarith), if_neg (by linarith), str_empty_append]
    have hp2 : (pad2 month).data.length = 2 := by
      interval_cases month <;> decide
    have hlen7 : (monthPrefixStr year month).data.length = 7 := by
      have hy4 : (toString year).data.length = 4 := hlen
      simp [monthPrefixStr, str_data_append, hp2, hy4]
    rw [pyStartsWith, List.isPrefixOf_iff_prefix, List.prefix_iff_eq_take, hlen7,
      specPeriodPred, hpad4, monthPrefixStr]
    exact eq_comm

/-! ## Month/year selector handling (claim C4) -/

theorem monthsUA_of_range {m : ℤ} (h1 : 1 ≤ m) (h2 : m ≤ 12) :
    ∃ nm, monthsUA m = some nm := by
  interval_cases m <;> exact ⟨_, rfl⟩

theorem monthsUA_of_out_of_range {m : ℤ} (h : m < 1 ∨ 12 < m) :
    monthsUA m = none := by
  have n1 : ¬ m = 1 := by omega
  have n2 : ¬ m = 2 := by omega
  have n3 : ¬ m = 3 := by omega
  have n4 : ¬ m = 4 := by omega
  have n5 : ¬ m = 5 := by omega
  have n6 : ¬ m = 6 := by omega
  have n7 : ¬ m = 7 := by omega
  have n8 : ¬ m = 8 := by omega
  have n9 : ¬ m = 9 := by omega
  have n10 : ¬ m = 10 := by omega
  have n11 : ¬ m = 11 := by omega
  have n12 : ¬ m = 12 := by omega
  rw [monthsUA, if_neg n1, if_neg n2, if_neg n3, if_neg n4, if_neg n5, if_neg n6,
    if_neg n7, if_neg n8, if_neg n9, if_neg n10, if_neg n11, if_neg n12]

/-- Counterexample to C4 as stated: the parseable but out-of-range
selector month 13 is not replaced by the current month (May); rendering
hits a `KeyError` in `MONTHS_UA` instead of completing. -/
theorem C4_selector_counterexample :
    dashboardRender (some "13") (some "2024") 5 2024 = .keyError
      ∧ resolveSelector (some "13") (some "2024") 5 2024 ≠ (5, 2024) := by
  decide

/-- C4 (amended): a missing, empty, or non-numeric month/year selector
falls back silently to the current month/year and the dashboard completes
normally; but a numeric out-of-range month is used as-is and rendering
raises an uncaught `KeyError` — there is no fallback for out-of-range
values. -/
theorem C4_selector_fallback :
    ∀ (mArg yArg : Option String) (todayMonth todayYear : ℤ),
      1 ≤ todayMonth → todayMonth ≤ 12 →
      ((mArg = none ∨ yArg = none ∨ mArg = some "" ∨ yArg = some ""
          ∨ (∃ s, mArg = some s ∧ pyIntParse s = none)
          ∨ (∃ s, yArg = some s ∧ pyIntParse s = none)) →
        resolveSelector mArg yArg todayMonth todayYear = (todayMonth, todayYear)
        ∧ ∃ nm, dashboardRender mArg yArg todayMonth todayYear
            = .page nm todayMonth todayYear)
      ∧ (∀ ms ys m y, mArg = some ms → yArg = some ys →
          pyIntParse ms = some m → pyIntParse ys = some y → ms ≠ "" → ys ≠ "" →
          (m < 1 ∨ 12 < m) →
          dashboardRender mArg yArg todayMonth todayYear = .keyError) := by
  intro mArg yArg todayMonth todayYear ht1 ht2
  constructor
  · intro hfall
    have hres : resolveSelector mArg yArg todayMonth todayYear
        = (todayMonth, todayYear) := by
      rcases hfall with rfl | rfl | rfl | rfl | ⟨s, rfl, hs⟩ | ⟨s, rfl, hs⟩
      · rfl
      · cases mArg <;> rfl
      · cases yArg with
        | none => rfl
        | some ys => simp [resolveSelector]
      · cases mArg with
        | none => rfl
        | some ms => simp [resolveSelector]
      · cases yArg with
        | none => rfl
        | some ys =>
          simp only [resolveSelector, hs]
          split_ifs with h
          · cases hpy : pyIntParse ys <;> rfl
          · rfl
      · cases mArg with
        | none => rfl
        | some ms =>
          simp only [resolveSelector, hs]
          split_ifs with h
          · cases hpm : pyIntParse ms <;> rfl
          · rfl
    refine ⟨hres, ?_⟩
    obtain ⟨nm, hnm⟩ := monthsUA_of_range ht1 ht2
    rw [dashboardRender, hres]
    rw [hnm]
    exact ⟨nm, rfl⟩
  · intro ms ys m y hms hys hpm hpy hmsne hysne hout
    subst hms hys
    have hres : resolveSelector (some ms) (some ys) todayMonth todayYear = (m, y) := by
      simp [resolveSelector, hpm, hpy, hmsne, hysne]
    rw [dashboardRender, hres, monthsUA_of_out_of_range hout]

/-- Witness for C4 (amended): the non-numeric selector value `"abc"`
falls back to the current month/year (May 2024) and renders a page. -/
theorem C4_selector_fallback_witness :
    resolveSelector (some "abc") (some "2024") 5 2024 = (5, 2024)
      ∧ ∃ nm, dashboardRender (some "abc") (some "2024") 5 2024 = .page nm 5 2024 :=
  (C4_selector_fallback (some "abc") (some "2024") 5 2024 (by norm_num) (by norm_num)).1
    (Or.inr (Or.inr (Or.inr (Or.inr (Or.inl ⟨"abc", rfl, by decide⟩)))))

/-! ## Ownership isolation (claim C5) -/

/-- With distinct ids (the primary-key invariant), the by-id lookup of a
member row returns that row. -/
theorem find_by_id_eq {α : Type} (f : α → Nat) :
    ∀ (l : List α) (r : α), (l.map f).Nodup → r ∈ l →
      l.find? (fun x => f x == f r) = some r := by
  intro l
  induction l with
  | nil => intro r _ h; simp at h
  | cons a l' ih =>
    intro r hnd hr
    rcases List.mem_cons.mp hr with rfl | hr'
    · rw [List.find?_cons_of_pos _ (by simp)]
    · have hnd2 : f a ∉ l'.map f ∧ (l'.map f).Nodup := by
        rw [List.map_cons, List.nodup_cons] at hnd
        exact hnd
      by_cases ha : f a = f r
      · exact absurd (ha ▸ List.mem_map_of_mem f hr') hnd2.1
      · rw [List.find?_cons_of_neg _ (by simpa using ha)]
        exact ih r hnd2.2 hr'

/-- A transaction row owned by user 2, targeted by user 1 in the
counterexample. -/
def c5Txn : Txn := ⟨7, 2, "expense", "Їжа", 50, "Cash", "2024-05-01", ""⟩

/-- Counterexample to C5 as stated: when user 1 deletes user 2's
transaction, the store is untouched but *no* user-visible failure message
is flashed — `delete_transaction` fails silently, contradicting the
claimed "user-visible failure message". -/
theorem C5_ownership_counterexample :
    delete_transaction 1 7 [c5Txn] = ([c5Txn], none) ∧ c5Txn.user_id = 2 := by
  decide

/-- C5 (amended): an operation by user `a` on a row owned by a different
user `b` never mutates or deletes the row — the store is returned
unchanged; `update_goal` and `delete_goal` flash a failure message, while
`delete_transaction` flashes nothing. -/
theorem C5_ownership_isolation :
    ∀ (a b : Nat) (trs : List Txn) (gls : List GoalRow) (r : Txn) (g : GoalRow)
      (form : List (String × String)),
      a ≠ b → (trs.map Txn.id).Nodup → r ∈ trs → r.user_id = b →
      (gls.map GoalRow.id).Nodup → g ∈ gls → g.user_id = b →
      delete_transaction a r.id trs = (trs, none)
      ∧ update_goal a g.id form gls = .ok (gls, "Ціль не знайдено.", "savings")
      ∧ delete_goal a g.id gls = (gls, "Не вдалося видалити ціль.") := by
  intro a b trs gls r g form hab hT hrT hrb hG hgG hgb
  have hfT : trs.find? (fun x => x.id == r.id) = some r := find_by_id_eq Txn.id trs r hT hrT
  have hfG : gls.find? (fun x => x.id == g.id) = some g :=
    find_by_id_eq GoalRow.id gls g hG hgG
  have hneq : ¬ r.user_id = a := by rw [hrb]; exact fun he => hab he.symm
  have hneqg : ¬ g.user_id = a := by rw [hgb]; exact fun he => hab he.symm
  have hba : (r.user_id == a) = false := by simpa using hneq
  have hbag : (g.user_id == a) = false := by simpa using hneqg
  refine ⟨?_, ?_, ?_⟩
  · simp [delete_transaction, hfT, hba]
  · simp only [update_goal, hfG]
    rw [if_pos hneqg]
  · simp [delete_goal, hfG, hbag]

/-- A goal row owned by user 2, targeted by user 1 in the C5 witness. -/
def c5Goal : GoalRow := ⟨9, 2, "Мрія", 300, 10, none⟩

/-- Witness for C5 (amended): user 1 operating on user 2's transaction 7
and goal 9 leaves both stores unchanged. -/
theorem C5_ownership_isolation_witness :
    delete_transaction 1 c5Txn.id [c5Txn] = ([c5Txn], none)
    ∧ update_goal 1 c5Goal.id [] [c5Goal] = .ok ([c5Goal], "Ціль не знайдено.", "savings")
    ∧ delete_goal 1 c5Goal.id [c5Goal] = ([c5Goal], "Не вдалося видалити ціль.") :=
  C5_ownership_isolation 1 2 [c5Txn] [c5Goal] c5Txn c5Goal []
    (by decide) (by decide) (by decide) (by decide) (by decide) (by decide) (by decide)

/-- Witness for C8 (amended): for the four-digit year 2024 the code's
filter criterion and the claim's first-7-characters criterion agree (here
both reject the date `"50-05-01"`). -/
theorem C8_period_filter_witness :
    pyStartsWith c8Txn.date (monthPrefixStr 2024 5) = true
      ↔ specPeriodPred c8Txn 2024 5 :=
  (C8_period_filter [c8Txn] c8Txn 2024 5).2 (by decide) (by decide) (by decide) (by decide)

/-! ## Budget saving (claims C6, C9) -/

theorem setBudgetAmountFirst_keys (uid : Nat) (cat : String) (amt : ℚ) :
    ∀ l : List BudgetRow,
      (setBudgetAmountFirst uid cat amt l).map (fun b => (b.id, b.user_id, b.category))
        = l.map (fun b => (b.id, b.user_id, b.category)) := by
  intro l
  induction l with
  | nil => rfl
  | cons b bs ih =>
    rw [setBudgetAmountFirst]
    split_ifs with h
    · rw [List.map_cons, List.map_cons]
    · rw [List.map_cons, List.map_cons, ih]

theorem setBudgetAmountFirst_length (uid : Nat) (cat : String) (amt : ℚ)
    (l : List BudgetRow) :
    (setBudgetAmountFirst uid cat amt l).length = l.length := by
  have h := congrArg List.length (setBudgetAmountFirst_keys uid cat amt l)
  simpa using h

theorem setBudgetAmountFirst_any (uid : Nat) (cat : String) (amt : ℚ) :
    ∀ l : List BudgetRow,
      ((setBudgetAmountFirst uid cat amt l).any
          (fun b => b.user_id == uid && b.category == cat))
        = l.any (fun b => b.user_id == uid && b.category == cat) := by
  intro l
  induction l with
  | nil => rfl
  | cons b bs ih =>
    rw [setBudgetAmountFirst]
    split_ifs with h
    · simp only [List.any_cons]
    · simp only [List.any_cons, ih]

/-- C6: if a budget row for the (user, stripped category) pair already
exists, `save_budget` updates the amount in place — the ids, owners and
categories of the store are untouched and the row count is unchanged —
and saving the same category twice is idempotent on row count. -/
theorem C6_save_budget_idempotent :
    ∀ (uid : Nat) (categoryRaw amountRaw : String) (newId newId2 : Nat)
      (store : List BudgetRow) (amt : ℚ),
      parse_number amountRaw = some amt →
      ((∃ b ∈ store, b.user_id = uid
          ∧ b.category = String.mk (pyStrip categoryRaw.data)) →
        (save_budget_route uid categoryRaw amountRaw newId store).1.map
            (fun b => (b.id, b.user_id, b.category))
          = store.map (fun b => (b.id, b.user_id, b.category))
        ∧ (save_budget_route uid categoryRaw amountRaw newId store).1.length
          = store.length)
      ∧ (save_budget_route uid categoryRaw amountRaw newId2
            (save_budget_route uid categoryRaw amountRaw newId store).1).1.length
        = (save_budget_route uid categoryRaw amountRaw newId store).1.length := by
  intro uid categoryRaw amountRaw newId newId2 store amt hparse
  simp only [save_budget_route, hparse]
  constructor
  · intro hex
    obtain ⟨b, hb, hbu, hbc⟩ := hex
    have hany : store.any
        (fun b => b.user_id == uid && b.category == String.mk (pyStrip categoryRaw.data))
        = true :=
      List.any_eq_true.mpr ⟨b, hb, by simp [hbu, hbc]⟩
    rw [if_pos hany]
    exact ⟨setBudgetAmountFirst_keys _ _ _ store, setBudgetAmountFirst_length _ _ _ store⟩
  · by_cases hany : store.any
      (fun b => b.user_id == uid && b.category == String.mk (pyStrip categoryRaw.data))
      = true
    · rw [if_pos hany, if_pos (by rw [setBudgetAmountFirst_any]; exact hany)]
      exact setBudgetAmountFirst_length _ _ _ _
    · rw [if_neg hany, if_pos (by
        rw [List.any_append]
        simp)]
      rw [setBudgetAmountFirst_length]

/-- An existing budget row of user 1 for category `food`. -/
def c6Row : BudgetRow := ⟨3, 1, "food", 100⟩

/-- Witness for C6: re-saving category `food` for user 1 updates the
existing row in place and adds no row. -/
theorem C6_save_budget_idempotent_witness :
    (save_budget_route 1 "food" "250" 5 [c6Row]).1.map
        (fun b => (b.id, b.user_id, b.category))
      = [c6Row].map (fun b => (b.id, b.user_id, b.category))
    ∧ (save_budget_route 1 "food" "250" 5 [c6Row]).1.length = [c6Row].length :=
  (C6_save_budget_idempotent 1 "food" "250" 5 6 [c6Row] 250 (by
      have h0 : commaToDot (pyStrip "250".data) = ['2', '5', '0'] := by decide
      have h1 : pyStrip ['2', '5', '0'] = ['2', '5', '0'] := by decide
      rw [parse_number, h0]
      unfold pyFloat
      rw [h1]
      simp [digitsVal])).1
    ⟨c6Row, by decide, by decide, by decide⟩

/-- C9: starting from an empty budget store, saving categories `Їжа` and
`Авто` and then renaming `Їжа` to `Авто` with `update_budget` leaves user
1 with two budget rows for the category `Авто` — `update_budget` performs
no uniqueness check, so the 1:1 category mapping maintained by
`save_budget` is not an invariant of every operation. -/
theorem C9_update_budget_duplicate_rows :
    ((update_budget 1 "Їжа" "Авто" "70"
        (save_budget_route 1 "Авто" "50" 2
          (save_budget_route 1 "Їжа" "100" 1 []).1).1).1.countP
      (fun b => b.user_id == 1 && b.category == "Авто")) = 2 := by
  decide

/-! ## Invalid numeric input (claim C7) and missing fields (claim C10) -/

/-- C7: in every mutating handler, a numeric form field that does not
parse leaves the store unchanged, flashes the handler's warning, and
redirects back to the originating page (for `update_goal` this covers a
present-but-invalid `target` field of an owned goal). -/
theorem C7_invalid_number_no_write :
    ∀ (uid newId gid : Nat) (raw typeField today catRaw oldCat name : String)
      (cSel cCat cPay cDate cDesc deadline currentRaw : Option String)
      (trs : List Txn) (bgs : List BudgetRow) (gls : List GoalRow)
      (form : List (String × String)) (g : GoalRow),
      parse_number raw = none →
      add_transaction uid raw typeField cSel cCat cPay cDate cDesc today newId trs
          = (trs, "Сума транзакції має бути числом!", "transactions_view")
      ∧ save_budget_route uid catRaw raw newId bgs
          = (bgs, "Сума бюджету має бути числом!", "budget")
      ∧ update_budget uid oldCat catRaw raw bgs
          = (bgs, "Сума бюджету має бути числом!", "budget")
      ∧ add_savings uid name deadline raw currentRaw newId gls
          = (gls, "Суми в цілі мають бути числами!", "savings")
      ∧ (gls.find? (fun x => x.id == gid) = some g → g.user_id = uid →
          formLookup form "target" = some raw →
          update_goal uid gid form gls
            = .ok (gls, "Суми в цілі мають бути числами!", "savings")) := by
  intro uid newId gid raw typeField today catRaw oldCat name cSel cCat cPay cDate cDesc
    deadline currentRaw trs bgs gls form g hparse
  refine ⟨?_, ?_, ?_, ?_, ?_⟩
  · simp [add_transaction, hparse]
  · simp [save_budget_route, hparse]
  · simp [update_budget, hparse]
  · simp [add_savings, hparse]
  · intro hfind hown hlk
    simp [update_goal, hfind, hown, formGetDyn, hlk, parse_number_dyn, hparse]

/-- A goal owned by user 1, used by the C7 witness. -/
def c7Goal : GoalRow := ⟨4, 1, "Відпустка", 1000, 50, none⟩

/-- Witness for C7: the unparseable amount `"abc"` leaves every store
unchanged and redirects with a warning in all five handlers. -/
theorem C7_invalid_number_no_write_witness :
    add_transaction 1 "abc" "expense" none none none none none "2024-05-05" 9 []
        = ([], "Сума транзакції має бути числом!", "transactions_view")
    ∧ save_budget_route 1 "Їжа" "abc" 9 []
        = ([], "Сума бюджету має бути числом!", "budget")
    ∧ update_budget 1 "Їжа" "Їжа" "abc" []
        = ([], "Сума бюджету має бути числом!", "budget")
    ∧ add_savings 1 "Мета" none "abc" none 9 [c7Goal]
        = ([c7Goal], "Суми в цілі мають бути числами!", "savings")
    ∧ update_goal 1 4 [("target", "abc")] [c7Goal]
        = .ok ([c7Goal], "Суми в цілі мають бути числами!", "savings") := by
  have h := C7_invalid_number_no_write 1 9 4 "abc" "expense" "2024-05-05" "Їжа" "Їжа"
    "Мета" none none none none none none none [] [] [c7Goal] [("target", "abc")] c7Goal
    (by decide)
  exact ⟨h.1, h.2.1, h.2.2.1, h.2.2.2.1, h.2.2.2.2 (by decide) (by decide) (by decide)⟩

/-- The goal row of the C10 failing request: `target` is 500.0 (truthy). -/
def c10Goal : GoalRow := ⟨5, 1, "Авто", 500, 100, none⟩

/-- C10: updating an owned goal with the `target` form field absent
passes the float row default through `parse_number`, whose string methods
raise `AttributeError`; only `ValueError` is caught, so the request dies
with an uncaught exception and nothing is written. -/
theorem C10_update_goal_attribute_error :
    update_goal 1 5 [("name", "Нове")] [c10Goal] = .error .attributeError := rfl

end Kurs
